import Mathlib

/-!
Verification of the linblock emulation runtime against its specification.

Each component referenced by the claims is shallowly embedded: Python
functions become Lean functions over explicit state, byte buffers become
`List Nat` (each element a byte value), and raised exceptions become
explicit error values.  Struct packing/unpacking (`struct.pack`/`unpack`)
is modelled by little/big endian byte codecs.
-/

namespace Linblock

/-! ### Byte codecs (struct.pack / struct.unpack) -/

/-- Little-endian encoding of `n` into `k` bytes, as produced by
`struct.pack` with formats `<I` (k = 4) and `<Q` (k = 8).  Faithful for
`n < 256^k`; Python raises `struct.error` beyond that range, so theorems
carry the range hypotheses. -/
def leBytes : Nat → Nat → List Nat
  | 0, _ => []
  | k + 1, n => n % 256 :: leBytes k (n / 256)

/-- Little-endian decoding of a byte list, as performed by `struct.unpack`
with formats `<I` and `<Q`. -/
def leVal : List Nat → Nat
  | [] => 0
  | b :: rest => b + 256 * leVal rest

@[simp] theorem leBytes_length (k n : Nat) : (leBytes k n).length = k := by
  induction k generalizing n with
  | zero => rfl
  | succ k ih => simp [leBytes, ih]

theorem leVal_leBytes_mod (k n : Nat) : leVal (leBytes k n) = n % 256 ^ k := by
  induction k generalizing n with
  | zero => simp [leBytes, leVal, Nat.mod_one]
  | succ k ih =>
      have h256 : (256 : Nat) ^ (k + 1) = 256 * 256 ^ k := by
        rw [pow_succ, Nat.mul_comm]
      rw [leBytes, leVal, ih, h256, Nat.mod_mul]

theorem leVal_leBytes (k n : Nat) (h : n < 256 ^ k) :
    leVal (leBytes k n) = n := by
  rw [leVal_leBytes_mod, Nat.mod_eq_of_lt h]

/-! ### SharedMemoryDisplay (shm_display.py)

The mapped region is a `List Nat` of bytes: a 40-byte header
(`struct.calcsize("<IIIIIIQQ")`) followed by the pixel buffer.  The
producer object carries `_width`/`_height`; each consumer carries its own
`_last_frame_number`. -/

/-- Magic value `0x4C424B44` ("LBKD"). -/
def SHM_MAGIC : Nat := 0x4C424B44

/-- Header format version. -/
def SHM_VERSION : Nat := 1

/-- `struct.calcsize("<IIIIIIQQ")`: six u32 fields plus two u64 fields. -/
def HEADER_SIZE : Nat := 40

/-- `struct.pack("<IIIIIIQQ", magic, version, w, h, stride, format, frame_number, timestamp)`. -/
def packHeader (magic version w h stride fmt fn ts : Nat) : List Nat :=
  leBytes 4 magic ++ leBytes 4 version ++ leBytes 4 w ++ leBytes 4 h ++
  leBytes 4 stride ++ leBytes 4 fmt ++ leBytes 8 fn ++ leBytes 8 ts

@[simp] theorem packHeader_length (m v w h s f fn ts : Nat) :
    (packHeader m v w h s f fn ts).length = 40 := by
  simp [packHeader]

/-- `SharedMemoryDisplay.create(width, height)`: the region after
`ftruncate` (zero fill) and the initial header write. -/
def shm_create (width height : Nat) : List Nat :=
  packHeader SHM_MAGIC SHM_VERSION width height (width * 4) 1 0 0 ++
  List.replicate (width * height * 4) 0

/-- `SharedMemoryDisplay.write_frame(pixels, frame_number, timestamp_ns)`:
rewrites the header unconditionally, then copies exactly
`width*height*4` pixel bytes only when the supplied buffer is at least
that large (excess truncated); a smaller buffer leaves the pixel bytes
untouched. -/
def write_frame (width height : Nat) (mem pixels : List Nat)
    (frame_number timestamp_ns : Nat) : List Nat :=
  let header := packHeader SHM_MAGIC SHM_VERSION width height (width * 4) 1
      frame_number timestamp_ns
  let mem1 := header ++ mem.drop HEADER_SIZE
  let expected := width * height * 4
  if expected ≤ pixels.length then
    mem1.take HEADER_SIZE ++ pixels.take expected ++
      mem1.drop (HEADER_SIZE + expected)
  else
    mem1

/-- Field of the unpacked header: magic (offset 0). -/
def hdrMagic (mem : List Nat) : Nat := leVal (((mem.take HEADER_SIZE).take 4))

/-- Field of the unpacked header: width (offset 8). -/
def hdrWidth (mem : List Nat) : Nat :=
  leVal (((mem.take HEADER_SIZE).drop 8).take 4)

/-- Field of the unpacked header: height (offset 12). -/
def hdrHeight (mem : List Nat) : Nat :=
  leVal (((mem.take HEADER_SIZE).drop 12).take 4)

/-- Field of the unpacked header: frame_number (offset 24, u64). -/
def hdrFrameNumber (mem : List Nat) : Nat :=
  leVal (((mem.take HEADER_SIZE).drop 24).take 8)

/-- Field of the unpacked header: timestamp_ns (offset 32, u64). -/
def hdrTimestamp (mem : List Nat) : Nat :=
  leVal (((mem.take HEADER_SIZE).drop 32).take 8)

/-- `SharedMemoryDisplay.read_frame()` on a region `mem` with the
consumer's `_last_frame_number = last`.  Returns the optional
`(width, height, frame_number, timestamp_ns, pixels)` snapshot together
with the consumer's updated `_last_frame_number`. -/
def read_frame (mem : List Nat) (last : Nat) :
    Option (Nat × Nat × Nat × Nat × List Nat) × Nat :=
  if hdrMagic mem ≠ SHM_MAGIC then (none, last)
  else
    let width := hdrWidth mem
    let height := hdrHeight mem
    let fn := hdrFrameNumber mem
    let ts := hdrTimestamp mem
    if fn = last then (none, last)
    else
      (some (width, height, fn, ts, (mem.drop HEADER_SIZE).take (width * height * 4)), fn)

/-! ### Slicing lemmas for the packed header -/

theorem take_append_len {α : Type} (l1 l2 : List α) (n : Nat) (h : l1.length = n) :
    (l1 ++ l2).take n = l1 := by
  subst h; exact List.take_left l1 l2

theorem drop_append_len {α : Type} (l1 l2 : List α) (n : Nat) (h : l1.length = n) :
    (l1 ++ l2).drop n = l2 := by
  subst h; exact List.drop_left l1 l2

theorem packHeader_split8 (m v w h s f fn ts : Nat) :
    packHeader m v w h s f fn ts =
      (leBytes 4 m ++ leBytes 4 v) ++
      (leBytes 4 w ++ leBytes 4 h ++ leBytes 4 s ++ leBytes 4 f ++
       leBytes 8 fn ++ leBytes 8 ts) := by
  simp [packHeader]

theorem packHeader_split24 (m v w h s f fn ts : Nat) :
    packHeader m v w h s f fn ts =
      (leBytes 4 m ++ leBytes 4 v ++ leBytes 4 w ++ leBytes 4 h ++
       leBytes 4 s ++ leBytes 4 f) ++ (leBytes 8 fn ++ leBytes 8 ts) := by
  simp [packHeader]

theorem packHeader_split32 (m v w h s f fn ts : Nat) :
    packHeader m v w h s f fn ts =
      (leBytes 4 m ++ leBytes 4 v ++ leBytes 4 w ++ leBytes 4 h ++
       leBytes 4 s ++ leBytes 4 f ++ leBytes 8 fn) ++ leBytes 8 ts := by
  simp [packHeader]

theorem take_pack_append (m v w h s f fn ts : Nat) (tail : List Nat) :
    (packHeader m v w h s f fn ts ++ tail).take HEADER_SIZE =
      packHeader m v w h s f fn ts :=
  take_append_len _ _ _ (packHeader_length m v w h s f fn ts)

theorem drop_pack_append (m v w h s f fn ts : Nat) (tail : List Nat) :
    (packHeader m v w h s f fn ts ++ tail).drop HEADER_SIZE = tail :=
  drop_append_len _ _ _ (packHeader_length m v w h s f fn ts)

theorem hdrMagic_append (m v w h s f fn ts : Nat) (tail : List Nat) :
    hdrMagic (packHeader m v w h s f fn ts ++ tail) = m % 2 ^ 32 := by
  rw [hdrMagic, take_pack_append, packHeader]
  rw [show leBytes 4 m ++ leBytes 4 v ++ leBytes 4 w ++ leBytes 4 h ++
        leBytes 4 s ++ leBytes 4 f ++ leBytes 8 fn ++ leBytes 8 ts =
      leBytes 4 m ++ (leBytes 4 v ++ leBytes 4 w ++ leBytes 4 h ++
        leBytes 4 s ++ leBytes 4 f ++ leBytes 8 fn ++ leBytes 8 ts) by simp]
  rw [take_append_len _ _ _ (leBytes_length 4 m), leVal_leBytes_mod]
  norm_num

theorem hdrWidth_append (m v w h s f fn ts : Nat) (tail : List Nat) :
    hdrWidth (packHeader m v w h s f fn ts ++ tail) = w % 2 ^ 32 := by
  rw [hdrWidth, take_pack_append, packHeader_split8]
  rw [drop_append_len _ _ 8 (by simp)]
  rw [show leBytes 4 w ++ leBytes 4 h ++ leBytes 4 s ++ leBytes 4 f ++
        leBytes 8 fn ++ leBytes 8 ts =
      leBytes 4 w ++ (leBytes 4 h ++ leBytes 4 s ++ leBytes 4 f ++
        leBytes 8 fn ++ leBytes 8 ts) by simp]
  rw [take_append_len _ _ _ (leBytes_length 4 w), leVal_leBytes_mod]
  norm_num

theorem hdrHeight_append (m v w h s f fn ts : Nat) (tail : List Nat) :
    hdrHeight (packHeader m v w h s f fn ts ++ tail) = h % 2 ^ 32 := by
  rw [hdrHeight, take_pack_append]
  rw [show packHeader m v w h s f fn ts =
      (leBytes 4 m ++ leBytes 4 v ++ leBytes 4 w) ++
      (leBytes 4 h ++ (leBytes 4 s ++ leBytes 4 f ++ leBytes 8 fn ++
        leBytes 8 ts)) by simp [packHeader]]
  rw [drop_append_len _ _ 12 (by simp)]
  rw [take_append_len _ _ _ (leBytes_length 4 h), leVal_leBytes_mod]
  norm_num

theorem hdrFrameNumber_append (m v w h s f fn ts : Nat) (tail : List Nat) :
    hdrFrameNumber (packHeader m v w h s f fn ts ++ tail) = fn % 2 ^ 64 := by
  rw [hdrFrameNumber, take_pack_append, packHeader_split24]
  rw [drop_append_len _ _ 24 (by simp)]
  rw [take_append_len _ _ _ (leBytes_length 8 fn), leVal_leBytes_mod]
  norm_num

theorem hdrTimestamp_append (m v w h s f fn ts : Nat) (tail : List Nat) :
    hdrTimestamp (packHeader m v w h s f fn ts ++ tail) = ts % 2 ^ 64 := by
  rw [hdrTimestamp, take_pack_append, packHeader_split32]
  rw [drop_append_len _ _ 32 (by simp)]
  rw [List.take_of_length_le (by simp), leVal_leBytes_mod]
  norm_num

/-! ### Behaviour lemmas for write_frame / read_frame -/

theorem write_frame_ge (width height fn ts : Nat) (mem pixels : List Nat)
    (h : width * height * 4 ≤ pixels.length) :
    write_frame width height mem pixels fn ts =
      packHeader SHM_MAGIC SHM_VERSION width height (width * 4) 1 fn ts ++
        (pixels.take (width * height * 4) ++
         mem.drop (HEADER_SIZE + width * height * 4)) := by
  rw [write_frame]
  simp only [if_pos h]
  rw [take_pack_append]
  have hdrop :
      (packHeader SHM_MAGIC SHM_VERSION width height (width * 4) 1 fn ts ++
        mem.drop HEADER_SIZE).drop (HEADER_SIZE + width * height * 4) =
      mem.drop (HEADER_SIZE + width * height * 4) := by
    rw [show HEADER_SIZE + width * height * 4 =
          (packHeader SHM_MAGIC SHM_VERSION width height (width * 4) 1 fn
            ts).length + width * height * 4 by simp [HEADER_SIZE]]
    rw [List.drop_append, List.drop_drop]
    congr 1
  rw [hdrop, List.append_assoc]

theorem write_frame_lt (width height fn ts : Nat) (mem pixels : List Nat)
    (h : pixels.length < width * height * 4) :
    write_frame width height mem pixels fn ts =
      packHeader SHM_MAGIC SHM_VERSION width height (width * 4) 1 fn ts ++
        mem.drop HEADER_SIZE := by
  rw [write_frame]
  simp only [if_neg (by omega : ¬ width * height * 4 ≤ pixels.length)]

theorem write_frame_shape (width height fn ts : Nat) (mem pixels : List Nat) :
    ∃ tail : List Nat,
      write_frame width height mem pixels fn ts =
        packHeader SHM_MAGIC SHM_VERSION width height (width * 4) 1 fn ts ++
          tail := by
  by_cases h : width * height * 4 ≤ pixels.length
  · exact ⟨_, write_frame_ge width height fn ts mem pixels h⟩
  · exact ⟨_, write_frame_lt width height fn ts mem pixels (by omega)⟩

theorem hdrFrameNumber_write (width height fn ts : Nat) (mem pixels : List Nat)
    (hfn : fn < 2 ^ 64) :
    hdrFrameNumber (write_frame width height mem pixels fn ts) = fn := by
  obtain ⟨tail, htail⟩ := write_frame_shape width height fn ts mem pixels
  rw [htail, hdrFrameNumber_append, Nat.mod_eq_of_lt hfn]

theorem hdrTimestamp_write (width height fn ts : Nat) (mem pixels : List Nat)
    (hts : ts < 2 ^ 64) :
    hdrTimestamp (write_frame width height mem pixels fn ts) = ts := by
  obtain ⟨tail, htail⟩ := write_frame_shape width height fn ts mem pixels
  rw [htail, hdrTimestamp_append, Nat.mod_eq_of_lt hts]

theorem shm_magic_lt : SHM_MAGIC < 2 ^ 32 := by decide

theorem read_frame_some (width height s fn ts last : Nat) (tail : List Nat)
    (hw : width < 2 ^ 32) (hh : height < 2 ^ 32)
    (hfn : fn < 2 ^ 64) (hts : ts < 2 ^ 64) (hne : fn ≠ last) :
    read_frame (packHeader SHM_MAGIC SHM_VERSION width height s 1 fn ts ++ tail)
        last =
      (some (width, height, fn, ts, tail.take (width * height * 4)), fn) := by
  rw [read_frame]
  simp only [hdrMagic_append, hdrWidth_append, hdrHeight_append,
    hdrFrameNumber_append, hdrTimestamp_append, drop_pack_append,
    Nat.mod_eq_of_lt hw, Nat.mod_eq_of_lt hh, Nat.mod_eq_of_lt hfn,
    Nat.mod_eq_of_lt hts, Nat.mod_eq_of_lt shm_magic_lt]
  rw [if_neg (by simp), if_neg hne]

theorem read_frame_spec (mem : List Nat) (last : Nat) :
    read_frame mem last = (none, last) ∨
    (hdrFrameNumber mem ≠ last ∧
     read_frame mem last =
       (some (hdrWidth mem, hdrHeight mem, hdrFrameNumber mem, hdrTimestamp mem,
          (mem.drop HEADER_SIZE).take (hdrWidth mem * hdrHeight mem * 4)),
        hdrFrameNumber mem)) := by
  rw [read_frame]
  by_cases h1 : hdrMagic mem ≠ SHM_MAGIC
  · left; rw [if_pos h1]
  · rw [if_neg h1]
    by_cases h2 : hdrFrameNumber mem = last
    · left; rw [if_pos h2]
    · right; exact ⟨h2, by rw [if_neg h2]⟩

theorem read_frame_twice (mem : List Nat) (last : Nat) :
    (read_frame mem ((read_frame mem last).2)).1 = none := by
  rcases read_frame_spec mem last with h | ⟨hne, h⟩
  · have h2 : (read_frame mem last).2 = last := by rw [h]
    rw [h2, h]
  · have h2 : (read_frame mem last).2 = hdrFrameNumber mem := by rw [h]
    rw [h2]
    by_cases hm : hdrMagic mem ≠ SHM_MAGIC
    · rw [read_frame, if_pos hm]
    · rw [read_frame, if_neg hm]
      simp

/-! ### Operation traces over one SharedFrameChannel (for the
frame-number monotonicity claim) -/

/-- One producer/consumer operation on a SharedFrameChannel. -/
inductive ShmOp where
  | write (pixels : List Nat) (frame_number timestamp_ns : Nat)
  | read

/-- Frame numbers supplied to `write_frame`, in call order. -/
def writeFns : List ShmOp → List Nat
  | [] => []
  | ShmOp.write _ n _ :: ops => n :: writeFns ops
  | ShmOp.read :: ops => writeFns ops

/-- Runs a sequence of operations: writes go through `write_frame` on the
shared region, reads go through `read_frame` with the consumer's running
`_last_frame_number`; the list of read results is collected in order. -/
def shm_run (width height : Nat) (mem : List Nat) (last : Nat) :
    List ShmOp → List (Option (Nat × Nat × Nat × Nat × List Nat))
  | [] => []
  | ShmOp.write p n t :: ops =>
      shm_run width height (write_frame width height mem p n t) last ops
  | ShmOp.read :: ops =>
      (read_frame mem last).1 ::
        shm_run width height mem (read_frame mem last).2 ops

/-- Frame numbers of the successful read results, in order. -/
def returnedFns (outs : List (Option (Nat × Nat × Nat × Nat × List Nat))) :
    List Nat :=
  outs.filterMap (fun o => o.map (fun r => r.2.2.1))

theorem shm_run_chain (width height : Nat) :
    ∀ (ops : List ShmOp) (mem : List Nat) (last : Nat),
      last ≤ hdrFrameNumber mem →
      List.Chain' (· < ·) (hdrFrameNumber mem :: writeFns ops) →
      (∀ n ∈ writeFns ops, n < 2 ^ 64) →
      List.Chain' (· < ·)
        (last :: returnedFns (shm_run width height mem last ops)) := by
  intro ops
  induction ops with
  | nil =>
      intro mem last _ _ _
      simp [shm_run, returnedFns]
  | cons op ops ih =>
      intro mem last hle hchain hrange
      cases op with
      | write p n t =>
          have hn : n < 2 ^ 64 := hrange n (by simp [writeFns])
          have hfn : hdrFrameNumber (write_frame width height mem p n t) = n :=
            hdrFrameNumber_write width height n t mem p hn
          have hlt : hdrFrameNumber mem < n := by
            have := (List.chain'_cons'.mp hchain).1
            simpa [writeFns] using this n (by simp [writeFns])
          refine ih (write_frame width height mem p n t) last ?_ ?_ ?_
          · rw [hfn]; omega
          · rw [hfn]
            exact (List.chain'_cons'.mp hchain).2
          · intro x hx
            exact hrange x (by simp [writeFns, hx])
      | read =>
          rcases read_frame_spec mem last with h | ⟨hne, h⟩
          · have h1 : (read_frame mem last).1 = none := by rw [h]
            have h2 : (read_frame mem last).2 = last := by rw [h]
            simp only [shm_run, h1, h2, returnedFns, List.filterMap_cons,
              Option.map_none]
            exact ih mem last hle (by simpa [writeFns] using hchain)
              (by simpa [writeFns] using hrange)
          · have h1 : (read_frame mem last).1 =
                some (hdrWidth mem, hdrHeight mem, hdrFrameNumber mem,
                  hdrTimestamp mem,
                  (mem.drop HEADER_SIZE).take
                    (hdrWidth mem * hdrHeight mem * 4)) := by rw [h]
            have h2 : (read_frame mem last).2 = hdrFrameNumber mem := by rw [h]
            simp only [shm_run, h1, h2, returnedFns, List.filterMap_cons,
              Option.map_some]
            refine List.Chain'.cons ?_ ?_
            · exact Nat.lt_of_le_of_ne hle (fun heq => hne heq.symm)
            · exact ih mem (hdrFrameNumber mem) (Nat.le_refl _)
                (by simpa [writeFns] using hchain)
                (by simpa [writeFns] using hrange)

theorem hdrFrameNumber_create (width height : Nat) :
    hdrFrameNumber (shm_create width height) = 0 := by
  rw [shm_create, hdrFrameNumber_append]
  simp

/-! ### Claims about the shared frame channel -/

/-- C1 (counterexample): `write_frame` with a 1-byte buffer on a 1x1
channel (capacity 4) publishes the new header, but the pixel bytes
returned by a fresh consumer's `read_frame` are the four untouched bytes
of the region, not the 1-byte input buffer: the round-trip is not
byte-identical for a buffer smaller than the allocated capacity. -/
theorem C1_counterexample :
    read_frame (write_frame 1 1 (shm_create 1 1) [7] 1 0) 0 =
      (some (1, 1, 1, 0, [0, 0, 0, 0]), 1) ∧
    ([0, 0, 0, 0] : List Nat) ≠ [7] :=
  ⟨rfl, by decide⟩

/-- C1 (amended): for a pixel buffer of at least `width*height*4` bytes
(the allocated capacity; excess bytes truncated) and a frame number other
than 0, `write_frame(pixels, N, T)` followed by a fresh consumer's
`read_frame()` returns `(width, height, N, T, pixels)` with the first
`width*height*4` pixel bytes byte-identical to the input.  Buffers
strictly smaller than the capacity are not copied at all, and a fresh
consumer suppresses frame number 0 as a duplicate of its initial state. -/
theorem C1_round_trip (width height fn ts : Nat) (mem pixels : List Nat)
    (hmem : mem.length = HEADER_SIZE + width * height * 4)
    (hpix : width * height * 4 ≤ pixels.length)
    (hw : width < 2 ^ 32) (hh : height < 2 ^ 32)
    (hfn : fn < 2 ^ 64) (hts : ts < 2 ^ 64) (hfn0 : fn ≠ 0) :
    read_frame (write_frame width height mem pixels fn ts) 0 =
      (some (width, height, fn, ts, pixels.take (width * height * 4)), fn) := by
  rw [write_frame_ge width height fn ts mem pixels hpix]
  have hdropnil : mem.drop (HEADER_SIZE + width * height * 4) = [] :=
    List.drop_eq_nil_of_le (by omega)
  rw [hdropnil, List.append_nil]
  rw [read_frame_some width height (width * 4) fn ts 0 _ hw hh hfn hts hfn0]
  rw [List.take_take]
  simp

/-- C1 (witness): the amended round-trip at a concrete 1x1 channel with
an exactly-capacity buffer. -/
theorem C1_round_trip_witness :
    read_frame (write_frame 1 1 (shm_create 1 1) [9, 8, 7, 6] 1 5) 0 =
      (some (1, 1, 1, 5, [9, 8, 7, 6]), 1) := by
  have h := C1_round_trip 1 1 1 5 (shm_create 1 1) [9, 8, 7, 6]
    (by decide) (by decide) (by decide) (by decide) (by decide) (by decide)
    (by decide)
  simpa using h

/-- C2 (counterexample): `write_frame` publishes whatever frame number the
caller supplies, so the trace write 1 / read / write 2 / read / write 1 /
read makes the consumer return frame number 1 twice, and the header value
is not strictly increasing over time (it goes 1, 2, 1). -/
theorem C2_counterexample :
    returnedFns (shm_run 1 1 (shm_create 1 1) 0
      [ShmOp.write [] 1 0, ShmOp.read, ShmOp.write [] 2 0, ShmOp.read,
       ShmOp.write [] 1 0, ShmOp.read]) = [1, 2, 1] ∧
    ¬ (returnedFns (shm_run 1 1 (shm_create 1 1) 0
      [ShmOp.write [] 1 0, ShmOp.read, ShmOp.write [] 2 0, ShmOp.read,
       ShmOp.write [] 1 0, ShmOp.read])).Pairwise (· ≠ ·) := by
  constructor
  · rfl
  · decide

/-- C2 (amended): provided the successive `write_frame` calls supply
strictly increasing positive frame numbers (as the renderer worker, the
only producer, does), the frame numbers returned by a consumer are
strictly increasing, hence never repeated; the header's frame_number
equals the last written value after every write; and unconditionally a
second `read_frame` with no intervening write of a new frame_number
returns nothing. -/
theorem C2_monotone_reader (width height : Nat) (ops : List ShmOp)
    (hrange : ∀ n ∈ writeFns ops, 0 < n ∧ n < 2 ^ 64)
    (hchain : List.Chain' (· < ·) (writeFns ops)) :
    List.Chain' (· < ·)
      (returnedFns (shm_run width height (shm_create width height) 0 ops)) ∧
    (returnedFns
        (shm_run width height (shm_create width height) 0 ops)).Pairwise
      (· ≠ ·) ∧
    (∀ (mem pixels : List Nat) (n t : Nat), n < 2 ^ 64 →
       hdrFrameNumber (write_frame width height mem pixels n t) = n) ∧
    (∀ (mem : List Nat) (last : Nat), HEADER_SIZE ≤ mem.length →
       (read_frame mem ((read_frame mem last).2)).1 = none) := by
  have hchain0 : List.Chain' (· < ·)
      (hdrFrameNumber (shm_create width height) :: writeFns ops) := by
    rw [hdrFrameNumber_create]
    exact List.Chain'.cons' hchain
      (fun y hy => (hrange y (List.mem_of_mem_head? hy)).1)
  have hmain := shm_run_chain width height ops (shm_create width height) 0
    (by rw [hdrFrameNumber_create]) hchain0 (fun n hn => (hrange n hn).2)
  have hchain1 : List.Chain' (· < ·)
      (returnedFns (shm_run width height (shm_create width height) 0 ops)) :=
    hmain.tail
  refine ⟨hchain1, ?_, ?_, ?_⟩
  · exact (List.chain'_iff_pairwise.mp hchain1).imp (fun h => Nat.ne_of_lt h)
  · exact fun mem pixels n t hn =>
      hdrFrameNumber_write width height n t mem pixels hn
  · exact fun mem last _ => read_frame_twice mem last

/-- C2 (witness): the amended statement at a concrete trace
write 1 / read / write 2 / read on a 1x1 channel. -/
theorem C2_monotone_reader_witness :
    List.Chain' (· < ·)
      (returnedFns (shm_run 1 1 (shm_create 1 1) 0
        [ShmOp.write [] 1 0, ShmOp.read, ShmOp.write [] 2 0, ShmOp.read])) ∧
    (returnedFns (shm_run 1 1 (shm_create 1 1) 0
        [ShmOp.write [] 1 0, ShmOp.read, ShmOp.write [] 2 0,
         ShmOp.read])).Pairwise (· ≠ ·) ∧
    (∀ (mem pixels : List Nat) (n t : Nat), n < 2 ^ 64 →
       hdrFrameNumber (write_frame 1 1 mem pixels n t) = n) ∧
    (∀ (mem : List Nat) (last : Nat), HEADER_SIZE ≤ mem.length →
       (read_frame mem ((read_frame mem last).2)).1 = none) :=
  C2_monotone_reader 1 1
    [ShmOp.write [] 1 0, ShmOp.read, ShmOp.write [] 2 0, ShmOp.read]
    (by decide) (by simp [writeFns])

/-- C10: `write_frame` with a buffer strictly smaller than
`width*height*4` still rewrites the header — the published frame_number
and timestamp become the new values — while every pixel byte in the
mapped region stays unchanged; a buffer of at least `width*height*4`
bytes causes exactly `width*height*4` pixel bytes to be copied with any
excess truncated. -/
theorem C10_write_frame_effects (width height fn ts : Nat)
    (mem pixels : List Nat) (hfn : fn < 2 ^ 64) (hts : ts < 2 ^ 64) :
    (pixels.length < width * height * 4 →
       write_frame width height mem pixels fn ts =
         packHeader SHM_MAGIC SHM_VERSION width height (width * 4) 1 fn ts ++
           mem.drop HEADER_SIZE) ∧
    (pixels.length < width * height * 4 →
       (write_frame width height mem pixels fn ts).drop HEADER_SIZE =
         mem.drop HEADER_SIZE) ∧
    (width * height * 4 ≤ pixels.length →
       write_frame width height mem pixels fn ts =
         packHeader SHM_MAGIC SHM_VERSION width height (width * 4) 1 fn ts ++
           (pixels.take (width * height * 4) ++
            mem.drop (HEADER_SIZE + width * height * 4))) ∧
    hdrFrameNumber (write_frame width height mem pixels fn ts) = fn ∧
    hdrTimestamp (write_frame width height mem pixels fn ts) = ts := by
  refine ⟨?_, ?_, ?_, ?_, ?_⟩
  · exact write_frame_lt width height fn ts mem pixels
  · intro hlt
    rw [write_frame_lt width height fn ts mem pixels hlt, drop_pack_append]
  · exact write_frame_ge width height fn ts mem pixels
  · exact hdrFrameNumber_write width height fn ts mem pixels hfn
  · exact hdrTimestamp_write width height fn ts mem pixels hts

/-- C10 (witness): the frame effects at a concrete 1x1 channel with a
1-byte (undersized) buffer. -/
theorem C10_write_frame_effects_witness :
    (([7] : List Nat).length < 1 * 1 * 4 →
       write_frame 1 1 (shm_create 1 1) [7] 3 9 =
         packHeader SHM_MAGIC SHM_VERSION 1 1 (1 * 4) 1 3 9 ++
           (shm_create 1 1).drop HEADER_SIZE) ∧
    (([7] : List Nat).length < 1 * 1 * 4 →
       (write_frame 1 1 (shm_create 1 1) [7] 3 9).drop HEADER_SIZE =
         (shm_create 1 1).drop HEADER_SIZE) ∧
    (1 * 1 * 4 ≤ ([7] : List Nat).length →
       write_frame 1 1 (shm_create 1 1) [7] 3 9 =
         packHeader SHM_MAGIC SHM_VERSION 1 1 (1 * 4) 1 3 9 ++
           (([7] : List Nat).take (1 * 1 * 4) ++
            (shm_create 1 1).drop (HEADER_SIZE + 1 * 1 * 4))) ∧
    hdrFrameNumber (write_frame 1 1 (shm_create 1 1) [7] 3 9) = 3 ∧
    hdrTimestamp (write_frame 1 1 (shm_create 1 1) [7] 3 9) = 9 :=
  C10_write_frame_effects 1 1 3 9 (shm_create 1 1) [7] (by decide) (by decide)

/-! ### QEMUProcess (qemu_process.py)

`start()` is modelled up to its observable outcome: the returned or
raised error, the final `_state`, whether a child process was spawned
(`subprocess.Popen` reached), and the final (possibly port-reassigned)
configuration.  The environment (QEMU binary availability, filesystem,
port occupancy, child survival) is an explicit structure. -/

/-- VM process lifecycle states (`QEMUState`). -/
inductive QEMUState where
  | stopped
  | starting
  | running
  | stopping
  | error
  deriving DecidableEq

/-- The configuration fields of `QEMUConfig` that `start()` inspects. -/
structure QEMUConfig where
  system_image : String
  adb_port : Nat
  vnc_port : Nat
  deriving DecidableEq

/-- The raise sites of `QEMUProcess.start()`.  `portExhausted` models the
`RuntimeError` raised by `_find_available_port`; the others are
`QEMUProcessError` raises. -/
inductive QEMUProcessFailure where
  | alreadyRunning
  | qemuNotFound
  | noSystemImage
  | imageNotFound (path : String)
  | portExhausted (start_port : Nat)
  | startFailed (stderr : String)
  deriving DecidableEq

/-- Host environment observed by `start()`. -/
structure QEMUEnv where
  qemuAvailable : Bool
  imageExists : String → Bool
  portAvailable : Nat → Bool
  spawnSucceeds : Bool
  aliveAfterGrace : Bool
  stderrOutput : String

/-- `_find_available_port(start_port, max_attempts)`: linear scan over
`start_port + offset` for `offset in range(max_attempts)`; `none` models
the `RuntimeError` raised on exhaustion. -/
def find_available_port_aux (avail : Nat → Bool) (start_port : Nat) :
    Nat → Nat → Option Nat
  | _, 0 => none
  | off, fuel + 1 =>
      if avail (start_port + off) then some (start_port + off)
      else find_available_port_aux avail start_port (off + 1) fuel

/-- `_find_available_port` with the default `max_attempts = 100`. -/
def find_available_port (avail : Nat → Bool) (start_port : Nat)
    (max_attempts : Nat := 100) : Option Nat :=
  find_available_port_aux avail start_port 0 max_attempts

/-- Observable outcome of `QEMUProcess.start()`. -/
structure QEMUStartResult where
  result : Except QEMUProcessFailure Unit
  state : QEMUState
  spawned : Bool
  config : QEMUConfig

/-- `QEMUProcess.start()` over environment `env`, configuration `cfg`
and current `_state` `st`. -/
def qemu_start (env : QEMUEnv) (cfg : QEMUConfig) (st : QEMUState) :
    QEMUStartResult :=
  if st = QEMUState.running ∨ st = QEMUState.starting then
    ⟨Except.error QEMUProcessFailure.alreadyRunning, st, false, cfg⟩
  else if env.qemuAvailable = false then
    ⟨Except.error QEMUProcessFailure.qemuNotFound, QEMUState.error, false, cfg⟩
  else if cfg.system_image = "" then
    ⟨Except.error QEMUProcessFailure.noSystemImage, QEMUState.error, false, cfg⟩
  else if env.imageExists cfg.system_image = false then
    ⟨Except.error (QEMUProcessFailure.imageNotFound cfg.system_image),
      QEMUState.error, false, cfg⟩
  else
    match (if env.portAvailable cfg.adb_port then some cfg.adb_port
           else find_available_port env.portAvailable cfg.adb_port) with
    | none =>
        ⟨Except.error (QEMUProcessFailure.portExhausted cfg.adb_port), st,
          false, cfg⟩
    | some adb =>
        let cfg1 : QEMUConfig := { cfg with adb_port := adb }
        match (if env.portAvailable cfg1.vnc_port then some cfg1.vnc_port
               else find_available_port env.portAvailable cfg1.vnc_port) with
        | none =>
            ⟨Except.error (QEMUProcessFailure.portExhausted cfg1.vnc_port),
              st, false, cfg1⟩
        | some vnc =>
            let cfg2 : QEMUConfig := { cfg1 with vnc_port := vnc }
            if env.spawnSucceeds = false then
              ⟨Except.error QEMUProcessFailure.qemuNotFound, QEMUState.error,
                false, cfg2⟩
            else if env.aliveAfterGrace then
              ⟨Except.ok (), QEMUState.running, true, cfg2⟩
            else
              ⟨Except.error (QEMUProcessFailure.startFailed env.stderrOutput),
                QEMUState.error, true, cfg2⟩

theorem find_available_port_aux_found (avail : Nat → Bool) (start_port : Nat) :
    ∀ (fuel off k : Nat), k < fuel → avail (start_port + off + k) = true →
      (∀ j, j < k → avail (start_port + off + j) = false) →
      find_available_port_aux avail start_port off fuel =
        some (start_port + off + k) := by
  intro fuel
  induction fuel with
  | zero => intro off k hk; omega
  | succ fuel ih =>
      intro off k hk hav hmin
      rw [find_available_port_aux]
      cases k with
      | zero =>
          rw [if_pos (by simpa using hav)]
          simp
      | succ k =>
          have h0 : avail (start_port + off) = false := by
            have := hmin 0 (Nat.succ_pos k)
            simpa using this
          rw [if_neg (by simp [h0])]
          have := ih (off + 1) k (by omega) (by
            have : start_port + (off + 1) + k = start_port + off + (k + 1) := by
              omega
            rw [this]; exact hav)
            (fun j hj => by
              have heq : start_port + (off + 1) + j = start_port + off + (j + 1) := by
                omega
              rw [heq]; exact hmin (j + 1) (by omega))
          rw [this]
          congr 1
          omega

theorem find_available_port_aux_none (avail : Nat → Bool) (start_port : Nat) :
    ∀ (fuel off : Nat), (∀ j, j < fuel → avail (start_port + off + j) = false) →
      find_available_port_aux avail start_port off fuel = none := by
  intro fuel
  induction fuel with
  | zero => intro off _; rfl
  | succ fuel ih =>
      intro off hall
      rw [find_available_port_aux]
      have h0 : avail (start_port + off) = false := by
        have := hall 0 (Nat.succ_pos fuel)
        simpa using this
      rw [if_neg (by simp [h0])]
      exact ih (off + 1) (fun j hj => by
        have heq : start_port + (off + 1) + j = start_port + off + (j + 1) := by
          omega
        rw [heq]; exact hall (j + 1) (by omega))

theorem find_available_port_found (avail : Nat → Bool) (start_port k : Nat)
    (hk : k < 100) (hav : avail (start_port + k) = true)
    (hmin : ∀ j, j < k → avail (start_port + j) = false) :
    find_available_port avail start_port = some (start_port + k) := by
  rw [find_available_port]
  have := find_available_port_aux_found avail start_port 100 0 k hk
    (by simpa using hav) (fun j hj => by simpa using hmin j hj)
  simpa using this

theorem find_available_port_none (avail : Nat → Bool) (start_port : Nat)
    (hall : ∀ j, j < 100 → avail (start_port + j) = false) :
    find_available_port avail start_port = none := by
  rw [find_available_port]
  exact find_available_port_aux_none avail start_port 100 0
    (fun j hj => by simpa using hall j hj)

/-- C3: for every configuration whose system image does not exist (with
the QEMU binary available and the manager not already Running/Starting),
`start()` fails with the image-validation error (`ImageNotFound`, or its
"no system image specified" variant when the path is empty), leaves the
state Error, and never spawns a child process. -/
theorem C3_image_not_found (env : QEMUEnv) (cfg : QEMUConfig) (st : QEMUState)
    (hst : ¬ (st = QEMUState.running ∨ st = QEMUState.starting))
    (hq : env.qemuAvailable = true)
    (himg : env.imageExists cfg.system_image = false) :
    (qemu_start env cfg st).result =
      Except.error (if cfg.system_image = "" then
        QEMUProcessFailure.noSystemImage
      else QEMUProcessFailure.imageNotFound cfg.system_image) ∧
    (qemu_start env cfg st).state = QEMUState.error ∧
    (qemu_start env cfg st).spawned = false := by
  rw [qemu_start, if_neg hst, if_neg (by simp [hq])]
  by_cases h0 : cfg.system_image = ""
  · rw [if_pos h0, if_pos h0]
    exact ⟨rfl, rfl, rfl⟩
  · rw [if_neg h0, if_neg h0, if_pos himg]
    exact ⟨rfl, rfl, rfl⟩

/-- Environment for the C3 witness: QEMU present, no image exists, all
ports free, spawn would succeed. -/
def c3Env : QEMUEnv :=
  ⟨true, fun _ => false, fun _ => true, true, true, ""⟩

/-- Configuration for the C3 witness. -/
def c3Cfg : QEMUConfig := ⟨"/missing.img", 5555, 5900⟩

/-- C3 (witness): the image-not-found failure at a concrete missing
image path. -/
theorem C3_image_not_found_witness :
    (qemu_start c3Env c3Cfg QEMUState.stopped).result =
      Except.error (QEMUProcessFailure.imageNotFound "/missing.img") ∧
    (qemu_start c3Env c3Cfg QEMUState.stopped).state = QEMUState.error ∧
    (qemu_start c3Env c3Cfg QEMUState.stopped).spawned = false := by
  have h := C3_image_not_found c3Env c3Cfg QEMUState.stopped (by decide) rfl rfl
  refine ⟨?_, h.2.1, h.2.2⟩
  rw [h.1]
  rfl

/-- C8: when the configured adb_port (resp. vnc_port) is already in use,
`start()` reassigns it by linear search to the next free port within 100
attempts before spawning, and when every candidate in the range is busy
it fails with the PortExhausted error without spawning. -/
theorem C8_port_fallback (env : QEMUEnv) (cfg : QEMUConfig) (st : QEMUState)
    (hst : ¬ (st = QEMUState.running ∨ st = QEMUState.starting))
    (hq : env.qemuAvailable = true)
    (h0 : cfg.system_image ≠ "")
    (himg : env.imageExists cfg.system_image = true) :
    (env.portAvailable cfg.adb_port = false →
      ∀ k, k < 100 → env.portAvailable (cfg.adb_port + k) = true →
        (∀ j, j < k → env.portAvailable (cfg.adb_port + j) = false) →
        (qemu_start env cfg st).config.adb_port = cfg.adb_port + k) ∧
    (env.portAvailable cfg.adb_port = false →
      (∀ j, j < 100 → env.portAvailable (cfg.adb_port + j) = false) →
      (qemu_start env cfg st).result =
        Except.error (QEMUProcessFailure.portExhausted cfg.adb_port) ∧
      (qemu_start env cfg st).spawned = false) ∧
    (env.portAvailable cfg.adb_port = true →
      env.portAvailable cfg.vnc_port = false →
      ∀ k, k < 100 → env.portAvailable (cfg.vnc_port + k) = true →
        (∀ j, j < k → env.portAvailable (cfg.vnc_port + j) = false) →
        (qemu_start env cfg st).config.vnc_port = cfg.vnc_port + k ∧
        (qemu_start env cfg st).config.adb_port = cfg.adb_port) ∧
    (env.portAvailable cfg.adb_port = true →
      env.portAvailable cfg.vnc_port = false →
      (∀ j, j < 100 → env.portAvailable (cfg.vnc_port + j) = false) →
      (qemu_start env cfg st).result =
        Except.error (QEMUProcessFailure.portExhausted cfg.vnc_port) ∧
      (qemu_start env cfg st).spawned = false) := by
  rw [qemu_start, if_neg hst, if_neg (by simp [hq]), if_neg h0,
    if_neg (by simp [himg])]
  refine ⟨?_, ?_, ?_, ?_⟩
  · intro hadb k hk hav hmin
    rw [if_neg (by simp [hadb]),
      find_available_port_found env.portAvailable cfg.adb_port k hk hav hmin]
    cases hv : env.portAvailable cfg.vnc_port <;>
      cases hfind : find_available_port env.portAvailable cfg.vnc_port <;>
        cases hsp : env.spawnSucceeds <;>
          cases hal : env.aliveAfterGrace <;>
            simp [hv, hfind, hsp, hal]
  · intro hadb hall
    rw [if_neg (by simp [hadb]),
      find_available_port_none env.portAvailable cfg.adb_port hall]
    exact ⟨rfl, rfl⟩
  · intro hadb hvnc k hk hav hmin
    rw [if_pos (by simp [hadb])]
    have hrw : (if env.portAvailable cfg.vnc_port = true then
        some cfg.vnc_port
      else find_available_port env.portAvailable cfg.vnc_port) =
        some (cfg.vnc_port + k) := by
      rw [if_neg (by simp [hvnc]),
        find_available_port_found env.portAvailable cfg.vnc_port k hk hav hmin]
    cases hsp : env.spawnSucceeds <;>
      cases hal : env.aliveAfterGrace <;>
        simp [hrw, hsp, hal]
  · intro hadb hvnc hall
    rw [if_pos (by simp [hadb])]
    have hrw : (if env.portAvailable cfg.vnc_port = true then
        some cfg.vnc_port
      else find_available_port env.portAvailable cfg.vnc_port) = none := by
      rw [if_neg (by simp [hvnc]),
        find_available_port_none env.portAvailable cfg.vnc_port hall]
    simp [hrw]

/-- Environment for the C8 witness: ports below 5557 are busy, everything
else is fine. -/
def c8Env : QEMUEnv :=
  ⟨true, fun _ => true, fun p => decide (5557 ≤ p), true, true, ""⟩

/-- Configuration for the C8 witness: requests busy port 5555. -/
def c8Cfg : QEMUConfig := ⟨"/system.img", 5555, 5900⟩

/-- C8 (witness): with ports 5555 and 5556 busy, `start()` reassigns the
adb port to 5557 = 5555 + 2, the next free port. -/
theorem C8_port_fallback_witness :
    (qemu_start c8Env c8Cfg QEMUState.stopped).config.adb_port = 5555 + 2 :=
  (C8_port_fallback c8Env c8Cfg QEMUState.stopped (by decide) rfl (by decide)
    rfl).1 rfl 2 (by decide) rfl (by decide)

/-! ### QEMUEmulatorCore (interface.py)

`QEMUEmulatorCore.stop()` is modelled on the orchestrator's state
machine: it raises `VMNotRunningError` unless the state is Running,
Paused or Starting, and otherwise passes through Stopping (detaching the
display and stopping the VM process) to Stopped. -/

/-- `VMState` of the orchestrator. -/
inductive VMState where
  | stopped
  | starting
  | running
  | paused
  | stopping
  | error
  deriving DecidableEq

/-- Raise sites of the orchestrator operations used here. -/
inductive EmulatorCoreFailure where
  | vmNotRunning
  deriving DecidableEq

/-- `QEMUEmulatorCore.stop()`: returns the new `_state` together with the
raised error, if any (the state is left untouched when the guard
raises). -/
def qemu_core_stop (st : VMState) : VMState × Option EmulatorCoreFailure :=
  if st = VMState.running ∨ st = VMState.paused ∨ st = VMState.starting then
    (VMState.stopped, none)
  else
    (st, some EmulatorCoreFailure.vmNotRunning)

/-- C4 (counterexample): calling `stop()` on an already-Stopped
`QEMUEmulatorCore` is not a no-op — it raises `VMNotRunningError`
("VM is not running") because the guard requires the state to be
Running, Paused or Starting. -/
theorem C4_counterexample :
    (qemu_core_stop VMState.stopped).2 = some EmulatorCoreFailure.vmNotRunning :=
  rfl

/-- C4 (amended): `stop()` on an already-Stopped `QEMUEmulatorCore`
raises `VMNotRunningError` and leaves the state Stopped (unchanged); the
silent no-op behaviour belongs to the VM process manager's
`QEMUProcess.stop`, not to the orchestrator. -/
theorem C4_stop_on_stopped :
    qemu_core_stop VMState.stopped =
      (VMState.stopped, some EmulatorCoreFailure.vmNotRunning) :=
  rfl

/-! ### RendererProcess (renderer_process.py)

`start()`/`stop()` are modelled over an explicit resource state: the
lifecycle `_state`, whether a socket object and a worker process are
held, whether the socket file exists on disk, the `_error_message`, and
the ordered trace of states passed to `_set_state`. -/

/-- Renderer process lifecycle states (`ProcessState`). -/
inductive ProcessState where
  | stopped
  | starting
  | running
  | stopping
  | error
  deriving DecidableEq

/-- Resource/observable state of a `RendererProcess` instance. -/
structure RState where
  state : ProcessState
  hasSocket : Bool
  hasProcess : Bool
  sockFile : Bool
  errorMessage : String
  trace : List ProcessState
  deriving DecidableEq

/-- `_set_state`: updates `_state` and records the transition (callback
notification is observational only). -/
def renderer_set_state (s : RState) (st : ProcessState) : RState :=
  { s with state := st, trace := s.trace ++ [st] }

/-- `RendererProcess.stop()`: no-op when already Stopped; otherwise
Stopping, then close the socket, terminate the worker, remove the socket
file, and finish Stopped.  Every step is exception-tolerant. -/
def renderer_stop (s : RState) : RState :=
  if s.state = ProcessState.stopped then s
  else
    let s1 := renderer_set_state s ProcessState.stopping
    let s2 := { s1 with hasSocket := false }
    let s3 := { s2 with hasProcess := false }
    let s4 := { s3 with sockFile := false }
    renderer_set_state s4 ProcessState.stopped

/-- Environment observed by `RendererProcess.start()`: whether binding
the listening socket succeeds, whether the worker connects before the
accept timeout, and whether the INIT round-trip returns OK. -/
structure REnv where
  bindOk : Bool
  acceptOk : Bool
  initOk : Bool

/-- Message of the `RendererProcessError` raised on accept timeout. -/
def worker_connect_msg : String := "Renderer worker failed to connect"

/-- `RendererProcess.start()`: returns the final state and the raised
error message, if any.  On the accept timeout the inner handler records
the message, enters Error, rolls back via `stop()` and raises; the outer
handler then repeats the message, re-enters Error, calls `stop()` again
and re-raises — so the final state is produced by `renderer_stop`. -/
def renderer_start (env : REnv) (s : RState) : RState × Option String :=
  if s.state = ProcessState.running ∨ s.state = ProcessState.starting then
    (s, some "Renderer already running")
  else
    let s1 := renderer_set_state s ProcessState.starting
    let s2 := { s1 with sockFile := false }
    if env.bindOk = false then
      let sE := renderer_set_state
        { s2 with hasSocket := true, errorMessage := "bind failed" }
        ProcessState.error
      (renderer_stop sE, some "bind failed")
    else
      let s3 := { s2 with hasSocket := true, sockFile := true }
      let s4 := { s3 with hasProcess := true }
      if env.acceptOk = false then
        let sA := renderer_stop (renderer_set_state
          { s4 with errorMessage := worker_connect_msg } ProcessState.error)
        let sB := renderer_stop (renderer_set_state
          { sA with errorMessage := worker_connect_msg } ProcessState.error)
        (sB, some worker_connect_msg)
      else
        if env.initOk = false then
          let sA := renderer_set_state
            { s4 with errorMessage := "Renderer init failed" }
            ProcessState.error
          let sB := renderer_stop (renderer_set_state
            { sA with errorMessage := "Renderer init failed" }
            ProcessState.error)
          (sB, some "Renderer init failed")
        else
          (renderer_set_state s4 ProcessState.running, none)

/-- A freshly constructed `RendererProcess` (state Stopped, no resources
held); `sock0` records whether a stale socket file pre-exists. -/
def renderer_fresh (sock0 : Bool) : RState :=
  ⟨ProcessState.stopped, false, false, sock0, "", []⟩

/-- C5 (counterexample): when the spawned worker fails to connect within
the accept timeout, `start()` raises and rolls back, but the final state
is Stopped, not Error: the Error state set by the handlers is
immediately overwritten because the rollback (`stop()`) unconditionally
finishes in Stopped. -/
theorem C5_counterexample :
    ((renderer_start ⟨true, false, true⟩ (renderer_fresh false)).1).state =
      ProcessState.stopped ∧
    ((renderer_start ⟨true, false, true⟩ (renderer_fresh false)).1).state ≠
      ProcessState.error :=
  ⟨rfl, by decide⟩

/-- C5 (amended): on the accept timeout, `start()` aborts, rolls back all
partially acquired resources (the socket is closed, the worker process
terminated, the socket file removed), raises `RendererProcessError`
carrying the descriptive message, records that message in
`_error_message`, and passes through the Error state transiently — but
the instance is finally left in Stopped, because the rollback `stop()`
runs after Error is set and unconditionally finishes in Stopped. -/
theorem C5_accept_timeout_rollback (i sock0 : Bool) :
    (renderer_start ⟨true, false, i⟩ (renderer_fresh sock0)).2 =
      some worker_connect_msg ∧
    ((renderer_start ⟨true, false, i⟩ (renderer_fresh sock0)).1).state =
      ProcessState.stopped ∧
    ((renderer_start ⟨true, false, i⟩ (renderer_fresh sock0)).1).hasSocket =
      false ∧
    ((renderer_start ⟨true, false, i⟩ (renderer_fresh sock0)).1).hasProcess =
      false ∧
    ((renderer_start ⟨true, false, i⟩ (renderer_fresh sock0)).1).sockFile =
      false ∧
    ((renderer_start ⟨true, false, i⟩
        (renderer_fresh sock0)).1).errorMessage = worker_connect_msg ∧
    ProcessState.error ∈
      ((renderer_start ⟨true, false, i⟩ (renderer_fresh sock0)).1).trace := by
  cases i <;> cases sock0 <;> decide

/-! ### Identifier generation in RendererProcess.__init__

The socket path and shm name are produced by f-strings interpolating
`os.getpid()` in decimal.  Python's decimal rendering of a non-negative
integer is modelled by `pyNatStr`. -/

/-- Decimal digit accumulation with explicit fuel (the fuel is always
sufficient at the call site, mirroring how `Nat.toDigits` is written). -/
def decDigitsCore : Nat → Nat → List Nat → List Nat
  | 0, _, acc => acc
  | fuel + 1, n, acc =>
      if n < 10 then n :: acc
      else decDigitsCore fuel (n / 10) (n % 10 :: acc)

/-- Decimal digits of `n`, most significant first. -/
def decDigits (n : Nat) : List Nat := decDigitsCore (n + 1) n []

/-- Decimal digit character. -/
def decChar (d : Nat) : Char :=
  match d with
  | 0 => '0'
  | 1 => '1'
  | 2 => '2'
  | 3 => '3'
  | 4 => '4'
  | 5 => '5'
  | 6 => '6'
  | 7 => '7'
  | 8 => '8'
  | 9 => '9'
  | _ => 'x'

/-- Python `str(n)` for a non-negative integer. -/
def pyNatStr (n : Nat) : String := ((decDigits n).map decChar).asString

/-- `f"/tmp/linblock_renderer_{os.getpid()}.sock"`. -/
def gen_socket_path (pid : Nat) : String :=
  "/tmp/linblock_renderer_" ++ pyNatStr pid ++ ".sock"

/-- `f"/linblock_display_{os.getpid()}"`. -/
def gen_shm_name (pid : Nat) : String :=
  "/linblock_display_" ++ pyNatStr pid

/-- The configuration fields of `RendererProcessConfig` filled in by
`RendererProcess.__init__`. -/
structure RendererProcessConfig where
  socket_path : String
  shm_name : String
  deriving DecidableEq

/-- `RendererProcess.__init__`: generates pid-derived identifiers when
the configuration leaves them empty. -/
def renderer_init_paths (pid : Nat) (cfg : RendererProcessConfig) :
    RendererProcessConfig :=
  { cfg with
    socket_path :=
      if cfg.socket_path = "" then gen_socket_path pid else cfg.socket_path,
    shm_name :=
      if cfg.shm_name = "" then gen_shm_name pid else cfg.shm_name }

/-- Recomposition of a decimal digit list. -/
def decVal (l : List Nat) : Nat := l.foldl (fun acc d => 10 * acc + d) 0

theorem decVal_append_singleton (l : List Nat) (d : Nat) :
    decVal (l ++ [d]) = 10 * decVal l + d := by
  simp [decVal, List.foldl_append]

theorem decDigitsCore_decVal :
    ∀ (fuel n : Nat) (acc : List Nat), n < 10 ^ fuel →
      decVal (decDigitsCore fuel n acc) =
        acc.foldl (fun a d => 10 * a + d) n := by
  intro fuel
  induction fuel with
  | zero =>
      intro n acc hn
      have : n = 0 := by simpa using hn
      subst this
      rfl
  | succ fuel ih =>
      intro n acc hn
      rw [decDigitsCore]
      by_cases h : n < 10
      · rw [if_pos h]
        simp [decVal, List.foldl_cons]
      · rw [if_neg h]
        rw [ih (n / 10) (n % 10 :: acc)
          (by rw [pow_succ] at hn; omega)]
        rw [List.foldl_cons]
        congr 2
        omega

theorem decVal_decDigits (n : Nat) : decVal (decDigits n) = n := by
  rw [decDigits, decDigitsCore_decVal (n + 1) n []
    (lt_of_lt_of_le (Nat.lt_pow_self (by omega) n)
      (Nat.pow_le_pow_right (by omega) (by omega)))]
  rfl

theorem decDigitsCore_lt10 :
    ∀ (fuel n : Nat) (acc : List Nat), (∀ d ∈ acc, d < 10) →
      ∀ d ∈ decDigitsCore fuel n acc, d < 10 := by
  intro fuel
  induction fuel with
  | zero => intro n acc hacc; exact hacc
  | succ fuel ih =>
      intro n acc hacc d hd
      rw [decDigitsCore] at hd
      by_cases h : n < 10
      · rw [if_pos h] at hd
        rcases List.mem_cons.mp hd with h' | h'
        · omega
        · exact hacc d h'
      · rw [if_neg h] at hd
        refine ih (n / 10) (n % 10 :: acc) ?_ d hd
        intro x hx
        rcases List.mem_cons.mp hx with h' | h'
        · omega
        · exact hacc x h'

theorem decDigits_lt10 (n : Nat) : ∀ d ∈ decDigits n, d < 10 :=
  decDigitsCore_lt10 (n + 1) n [] (by simp)

/-- Inverse of `decChar` on actual digits. -/
def charDigitVal (c : Char) : Nat := c.toNat - 48

theorem charDigitVal_decChar (d : Nat) (h : d < 10) :
    charDigitVal (decChar d) = d := by
  interval_cases d <;> rfl

theorem map_decChar_inj (l1 l2 : List Nat)
    (h1 : ∀ d ∈ l1, d < 10) (h2 : ∀ d ∈ l2, d < 10)
    (h : l1.map decChar = l2.map decChar) : l1 = l2 := by
  have hmap := congrArg (List.map charDigitVal) h
  rw [List.map_map, List.map_map] at hmap
  have e1 : l1.map (charDigitVal ∘ decChar) = l1 := by
    have he : l1.map (charDigitVal ∘ decChar) = l1.map id :=
      List.map_congr_left (fun d hd => by
        simp only [Function.comp_apply, id_eq,
          charDigitVal_decChar d (h1 d hd)])
    rw [he, List.map_id]
  have e2 : l2.map (charDigitVal ∘ decChar) = l2 := by
    have he : l2.map (charDigitVal ∘ decChar) = l2.map id :=
      List.map_congr_left (fun d hd => by
        simp only [Function.comp_apply, id_eq,
          charDigitVal_decChar d (h2 d hd)])
    rw [he, List.map_id]
  rw [e1, e2] at hmap
  exact hmap

theorem pyNatStr_data_inj (m n : Nat)
    (h : (pyNatStr m).data = (pyNatStr n).data) : m = n := by
  have hdigits : decDigits m = decDigits n :=
    map_decChar_inj _ _ (decDigits_lt10 m) (decDigits_lt10 n) h
  have := congrArg decVal hdigits
  rwa [decVal_decDigits, decVal_decDigits] at this

theorem pyNatStr_inj (m n : Nat) (h : pyNatStr m = pyNatStr n) : m = n :=
  pyNatStr_data_inj m n (congrArg String.data h)

/-- C9 (counterexample): two `RendererProcess` instances created inside
the same host process observe the same `os.getpid()`, so both generate
the identical socket path and shm name — the identifiers collide for
concurrently existing instances within one process. -/
theorem C9_counterexample :
    (renderer_init_paths 4242 ⟨"", ""⟩).socket_path =
      (renderer_init_paths 4242 ⟨"", ""⟩).socket_path ∧
    (renderer_init_paths 4242 ⟨"", ""⟩).shm_name =
      (renderer_init_paths 4242 ⟨"", ""⟩).shm_name ∧
    (renderer_init_paths 4242 ⟨"", ""⟩).socket_path =
      "/tmp/linblock_renderer_4242.sock" ∧
    (renderer_init_paths 4242 ⟨"", ""⟩).shm_name =
      "/linblock_display_4242" := by
  refine ⟨rfl, rfl, ?_, ?_⟩ <;> decide

/-- C9 (amended): the generated socket paths and shm names are distinct
for `RendererProcess` instances created in different host processes
(distinct pids); instances created inside the same host process (equal
pids) generate identical identifiers. -/
theorem C9_distinct_pids (p1 p2 : Nat) (h : p1 ≠ p2) :
    (renderer_init_paths p1 ⟨"", ""⟩).socket_path ≠
      (renderer_init_paths p2 ⟨"", ""⟩).socket_path ∧
    (renderer_init_paths p1 ⟨"", ""⟩).shm_name ≠
      (renderer_init_paths p2 ⟨"", ""⟩).shm_name := by
  constructor
  · intro he
    apply h
    have he' : gen_socket_path p1 = gen_socket_path p2 := by
      simpa [renderer_init_paths] using he
    have hd : "/tmp/linblock_renderer_".data ++
        ((pyNatStr p1).data ++ ".sock".data) =
        "/tmp/linblock_renderer_".data ++
        ((pyNatStr p2).data ++ ".sock".data) := by
      have := congrArg String.data he'
      simpa [gen_socket_path, String.data_append, List.append_assoc]
        using this
    exact pyNatStr_data_inj p1 p2
      (List.append_cancel_right (List.append_cancel_left hd))
  · intro he
    apply h
    have he' : gen_shm_name p1 = gen_shm_name p2 := by
      simpa [renderer_init_paths] using he
    have hd : "/linblock_display_".data ++ (pyNatStr p1).data =
        "/linblock_display_".data ++ (pyNatStr p2).data := by
      have := congrArg String.data he'
      simpa [gen_shm_name, String.data_append] using this
    exact pyNatStr_data_inj p1 p2 (List.append_cancel_left hd)

/-- C9 (witness): distinct pids 1 and 2 generate distinct identifiers. -/
theorem C9_distinct_pids_witness :
    (renderer_init_paths 1 ⟨"", ""⟩).socket_path ≠
      (renderer_init_paths 2 ⟨"", ""⟩).socket_path ∧
    (renderer_init_paths 1 ⟨"", ""⟩).shm_name ≠
      (renderer_init_paths 2 ⟨"", ""⟩).shm_name :=
  C9_distinct_pids 1 2 (by decide)

/-! ### VNCClient.connect (vnc_client.py)

The handshake consumes the server-to-client byte stream; `recv(n)` is
modelled as taking the next `n` bytes of the stream (short only at its
end).  Raised `VNCError`s become constructors carrying the same payloads
as the formatted messages; a `struct.error` from unpacking a short read
(a different Python exception type) is the separate `structError`. -/

/-- Big-endian decoding, as `struct.unpack` with `!I`/`!H`. -/
def beVal (l : List Nat) : Nat := l.foldl (fun acc b => 256 * acc + b) 0

/-- Big-endian encoding of `n` into `k` bytes (`struct.pack("!I", n)`). -/
def beBytes : Nat → Nat → List Nat
  | 0, _ => []
  | k + 1, n => beBytes k (n / 256) ++ [n % 256]

@[simp] theorem beBytes_length (k n : Nat) : (beBytes k n).length = k := by
  induction k generalizing n with
  | zero => rfl
  | succ k ih => simp [beBytes, ih]

theorem beVal_append_singleton (l : List Nat) (d : Nat) :
    beVal (l ++ [d]) = 256 * beVal l + d := by
  simp [beVal, List.foldl_append]

theorem beVal_beBytes_mod (k n : Nat) : beVal (beBytes k n) = n % 256 ^ k := by
  induction k generalizing n with
  | zero => simp [beBytes, beVal, Nat.mod_one]
  | succ k ih =>
      have h256 : (256 : Nat) ^ (k + 1) = 256 * 256 ^ k := by
        rw [pow_succ, Nat.mul_comm]
      rw [beBytes, beVal_append_singleton, ih, h256, Nat.mod_mul]
      omega

theorem beVal_beBytes (k n : Nat) (h : n < 256 ^ k) :
    beVal (beBytes k n) = n := by
  rw [beVal_beBytes_mod, Nat.mod_eq_of_lt h]

/-- `socket.recv(n)` on a byte stream: the next `n` bytes (fewer at the
end of the stream) and the remaining stream. -/
def recvN (s : List Nat) (n : Nat) : List Nat × List Nat :=
  (s.take n, s.drop n)

/-- The failure modes of `VNCClient.connect`, one per raise site. -/
inductive VNCConnectError where
  | invalidVersion (got : List Nat)
  | serverRejected (reason : List Nat)
  | authUnsupported
  | securityFailed
  | structError
  deriving DecidableEq

/-- The bytes of `b"RFB "`. -/
def rfbPrefix : List Nat := [82, 70, 66, 32]

/-- `VNCClient.connect` over the server's byte stream.  Returns the
negotiated `(width, height)` on success.  Note the raise sites: a zero
security-type count reads and carries the server's reason
(`serverRejected`); a missing "None" security type raises
`authUnsupported`; a nonzero security result raises the fixed-message
`securityFailed`, reading and carrying nothing further. -/
def vnc_connect (stream : List Nat) : Except VNCConnectError (Nat × Nat) :=
  let r1 := recvN stream 12
  if r1.1.take 4 ≠ rfbPrefix then
    Except.error (VNCConnectError.invalidVersion r1.1)
  else
    match recvN r1.2 1 with
    | ([num_sec_types], s2) =>
      if num_sec_types = 0 then
        let r3 := recvN s2 4
        if r3.1.length = 4 then
          let reason_len := beVal r3.1
          Except.error (VNCConnectError.serverRejected
            (recvN r3.2 reason_len).1)
        else Except.error VNCConnectError.structError
      else
        let r3 := recvN s2 num_sec_types
        if 1 ∈ r3.1 then
          let r4 := recvN r3.2 4
          if r4.1.length = 4 then
            if beVal r4.1 ≠ 0 then
              Except.error VNCConnectError.securityFailed
            else
              let r5 := recvN r4.2 24
              if r5.1.length = 24 then
                Except.ok (beVal (r5.1.take 2), beVal ((r5.1.drop 2).take 2))
              else Except.error VNCConnectError.structError
          else Except.error VNCConnectError.structError
        else Except.error VNCConnectError.authUnsupported
    | _ => Except.error VNCConnectError.structError

/-- Server stream for the security phase: a valid 12-byte version banner,
the one-byte security-type count, the type list, the 4-byte big-endian
security result, then whatever follows. -/
def mkVncStream (v8 sec_types : List Nat) (result : Nat) (rest : List Nat) :
    List Nat :=
  rfbPrefix ++ v8 ++ [sec_types.length] ++ sec_types ++
    beBytes 4 result ++ rest

/-- C6 (counterexample): with the security result word nonzero and the
server's reason "denied" available on the stream, `connect` raises the
fixed-message security-handshake-failed error: the error does not carry
(or even read) the server-supplied reason. -/
theorem C6_counterexample :
    vnc_connect (mkVncStream [48, 48, 51, 46, 48, 48, 56, 10] [1] 1
        (beBytes 4 6 ++ [100, 101, 110, 105, 101, 100])) =
      Except.error VNCConnectError.securityFailed ∧
    (∀ reason : List Nat,
      (Except.error VNCConnectError.securityFailed :
          Except VNCConnectError (Nat × Nat)) ≠
        Except.error (VNCConnectError.serverRejected reason)) :=
  ⟨rfl, fun _ h => by simp at h⟩

/-- C6 (amended): whenever the "None" security type is offered and the
server's security-result word is nonzero, `connect` fails with the
fixed-message `securityFailed` error, which does not carry the server's
reason (the server-supplied reason is carried only by the
zero-security-types rejection); and whenever "None" is not among the
offered types, `connect` fails with the authentication-unsupported
error. -/
theorem C6_security_handshake (v8 sec_types : List Nat) (result : Nat)
    (rest : List Nat) (hv : v8.length = 8) (hne : sec_types ≠ [])
    (_hlen : sec_types.length < 256) (hres : result < 2 ^ 32) :
    (1 ∈ sec_types → result ≠ 0 →
      vnc_connect (mkVncStream v8 sec_types result rest) =
        Except.error VNCConnectError.securityFailed) ∧
    (1 ∉ sec_types →
      vnc_connect (mkVncStream v8 sec_types result rest) =
        Except.error VNCConnectError.authUnsupported) := by
  have hstream : mkVncStream v8 sec_types result rest =
      (rfbPrefix ++ v8) ++ ([sec_types.length] ++
        (sec_types ++ (beBytes 4 result ++ rest))) := by
    simp [mkVncStream]
  have htake12 : ((rfbPrefix ++ v8) ++ ([sec_types.length] ++
      (sec_types ++ (beBytes 4 result ++ rest)))).take 12 =
      rfbPrefix ++ v8 :=
    take_append_len _ _ _ (by simp [rfbPrefix, hv])
  have hdrop12 : ((rfbPrefix ++ v8) ++ ([sec_types.length] ++
      (sec_types ++ (beBytes 4 result ++ rest)))).drop 12 =
      [sec_types.length] ++ (sec_types ++ (beBytes 4 result ++ rest)) :=
    drop_append_len _ _ _ (by simp [rfbPrefix, hv])
  have hver : (rfbPrefix ++ v8).take 4 = rfbPrefix :=
    take_append_len _ _ _ (by simp [rfbPrefix])
  have hcount : sec_types.length ≠ 0 := by
    simpa using fun h => hne (List.length_eq_zero.mp h)
  have hsec : (sec_types ++ (beBytes 4 result ++ rest)).take
      sec_types.length = sec_types :=
    take_append_len _ _ _ rfl
  have hsecd : (sec_types ++ (beBytes 4 result ++ rest)).drop
      sec_types.length = beBytes 4 result ++ rest :=
    drop_append_len _ _ _ rfl
  have hres4 : (beBytes 4 result ++ rest).take 4 = beBytes 4 result :=
    take_append_len _ _ _ (by simp)
  have h2p : (256 : Nat) ^ 4 = 2 ^ 32 := by norm_num
  have htake1 : ∀ (x : Nat) (y : List Nat), List.take 1 (x :: y) = [x] :=
    fun x y => rfl
  have hdrop1 : ∀ (x : Nat) (y : List Nat), List.drop 1 (x :: y) = y :=
    fun x y => rfl
  constructor
  · intro hmem hr
    rw [hstream, vnc_connect]
    simp only [recvN, htake12, hdrop12]
    rw [if_neg (by simp [hver])]
    simp only [List.singleton_append, htake1, hdrop1]
    rw [if_neg hcount]
    simp only [hsec, hsecd]
    rw [if_pos hmem, if_pos (by simp), if_pos (by
      rw [hres4, beVal_beBytes 4 result (by rw [h2p]; exact hres)]
      exact hr)]
  · intro hmem
    rw [hstream, vnc_connect]
    simp only [recvN, htake12, hdrop12]
    rw [if_neg (by simp [hver])]
    simp only [List.singleton_append, htake1, hdrop1]
    rw [if_neg hcount]
    simp only [hsec, hsecd]
    rw [if_neg hmem]

/-- C6 (witness): a server that offers only VNC authentication (type 2,
"None" absent) makes `connect` fail with the authentication-unsupported
error. -/
theorem C6_security_handshake_witness :
    vnc_connect (mkVncStream [48, 48, 51, 46, 48, 48, 56, 10] [2] 0 []) =
      Except.error VNCConnectError.authUnsupported :=
  (C6_security_handshake [48, 48, 51, 46, 48, 48, 56, 10] [2] 0 []
    (by decide) (by decide) (by decide) (by decide)).2 (by decide)

/-! ### GPUCommandPipe transports (gpu_pipe.py)

A socket's incoming data is a list of chunks: each `recv(n)` call
returns up to `n` bytes from the first pending chunk (chunk boundaries
model how the data arrived); an exhausted chunk list is a closed peer,
whose `recv` returns the empty byte string. -/

/-- One `socket.recv(n)` call over chunked input. -/
def recvChunk : List (List Nat) → Nat → List Nat × List (List Nat)
  | [], _ => ([], [])
  | c :: rest, n =>
      (c.take n, if c.drop n = [] then rest else c.drop n :: rest)

/-- `VirtioSerialTransport._recv_exact(size)`: loops `recv(size - got)`
until `size` bytes have arrived; `none` models the `return None` on a
closed peer (empty `recv`) or exhausted input. -/
def recvExact : List (List Nat) → Nat → Option (List Nat × List (List Nat))
  | chunks, 0 => some ([], chunks)
  | [], _ + 1 => none
  | c :: rest, n + 1 =>
      if c = [] then none
      else if n + 1 ≤ c.length then
        some (c.take (n + 1),
          if c.drop (n + 1) = [] then rest else c.drop (n + 1) :: rest)
      else
        match recvExact rest (n + 1 - c.length) with
        | some (d, s) => some (c ++ d, s)
        | none => none

/-- `GPUCommandPacket` (the wall-clock `timestamp_ns` field is omitted
from the model). -/
structure GPUCommandPacket where
  sequence : Nat
  opcode : Nat
  size : Nat
  data : List Nat
  deriving DecidableEq

/-- `VirtioSerialTransport.read_command`: exact-length reads of the
12-byte `<III` header and the `size`-byte payload; any short or failed
read yields `none` (the Python `try` converts every exception to
`None`). -/
def virtio_read_command (chunks : List (List Nat)) :
    Option (GPUCommandPacket × List (List Nat)) :=
  match recvExact chunks 12 with
  | none => none
  | some (header, s1) =>
      let sequence := leVal (header.take 4)
      let opcode := leVal ((header.drop 4).take 4)
      let size := leVal (header.drop 8)
      if 0 < size then
        match recvExact s1 size with
        | none => none
        | some (data, s2) => some (⟨sequence, opcode, size, data⟩, s2)
      else some (⟨sequence, opcode, size, []⟩, s1)

/-- `UnixSocketTransport.read_command`: a single `recv(12)` for the
header (short read → `none`) and a single `recv(size)` for the payload —
no loop, so a payload split across recv calls is truncated, not
reassembled. -/
def unix_read_command (chunks : List (List Nat)) :
    Option (GPUCommandPacket × List (List Nat)) :=
  let r1 := recvChunk chunks 12
  if r1.1.length < 12 then none
  else
    let sequence := leVal (r1.1.take 4)
    let opcode := leVal ((r1.1.drop 4).take 4)
    let size := leVal (r1.1.drop 8)
    let r2 := if 0 < size then recvChunk r1.2 size else ([], r1.2)
    some (⟨sequence, opcode, size, r2.1⟩, r2.2)

theorem recvExact_flatten :
    ∀ (chunks : List (List Nat)) (n : Nat), (∀ c ∈ chunks, c ≠ []) →
      n ≤ chunks.flatten.length →
      ∃ s, recvExact chunks n = some (chunks.flatten.take n, s) ∧
        s.flatten = chunks.flatten.drop n ∧ (∀ c ∈ s, c ≠ []) := by
  intro chunks
  induction chunks with
  | nil =>
      intro n _ hn
      simp at hn
      subst hn
      exact ⟨[], rfl, rfl, by simp⟩
  | cons c rest ih =>
      intro n hne hn
      cases n with
      | zero => exact ⟨c :: rest, rfl, rfl, hne⟩
      | succ n =>
          have hc : c ≠ [] := hne c (by simp)
          rw [recvExact, if_neg hc]
          by_cases hlen : n + 1 ≤ c.length
          · rw [if_pos hlen]
            have htake : (c :: rest).flatten.take (n + 1) = c.take (n + 1) := by
              simp only [List.flatten_cons]
              rw [List.take_append_of_le_length hlen]
            rw [htake]
            refine ⟨_, rfl, ?_, ?_⟩
            · simp only [List.flatten_cons]
              rw [List.drop_append_of_le_length hlen]
              by_cases hnil : c.drop (n + 1) = []
              · simp [hnil]
              · simp [hnil]
            · intro x hx
              by_cases hnil : c.drop (n + 1) = []
              · rw [if_pos hnil] at hx
                exact hne x (by simp [hx])
              · rw [if_neg hnil] at hx
                rcases List.mem_cons.mp hx with h' | h'
                · rw [h']; exact hnil
                · exact hne x (by simp [h'])
          · rw [if_neg hlen]
            have hrest : n + 1 - c.length ≤ rest.flatten.length := by
              simp only [List.flatten_cons, List.length_append] at hn
              omega
            obtain ⟨s, hs, hsf, hsne⟩ := ih (n + 1 - c.length)
              (fun x hx => hne x (by simp [hx])) hrest
            rw [hs]
            have hsplit : n + 1 = c.length + (n + 1 - c.length) := by omega
            have htake : (c :: rest).flatten.take (n + 1) =
                c ++ rest.flatten.take (n + 1 - c.length) := by
              simp only [List.flatten_cons]
              conv_lhs => rw [hsplit]
              rw [List.take_append]
            have hdrop : (c :: rest).flatten.drop (n + 1) =
                rest.flatten.drop (n + 1 - c.length) := by
              simp only [List.flatten_cons]
              conv_lhs => rw [hsplit]
              rw [List.drop_append]
            rw [htake, hdrop]
            exact ⟨s, rfl, hsf, hsne⟩

theorem recvExact_short :
    ∀ (chunks : List (List Nat)) (n : Nat), chunks.flatten.length < n →
      recvExact chunks n = none := by
  intro chunks
  induction chunks with
  | nil =>
      intro n hn
      cases n with
      | zero => simp at hn
      | succ n => rfl
  | cons c rest ih =>
      intro n hn
      cases n with
      | zero => simp at hn
      | succ n =>
          rw [recvExact]
          by_cases hc : c = []
          · rw [if_pos hc]
          · rw [if_neg hc]
            have hlen : ¬ n + 1 ≤ c.length := by
              simp only [List.flatten_cons, List.length_append] at hn
              omega
            rw [if_neg hlen]
            rw [ih (n + 1 - c.length) (by
              simp only [List.flatten_cons, List.length_append] at hn
              omega)]

/-- Header bytes of a packet. -/
def packetHeader (seq op size : Nat) : List Nat :=
  leBytes 4 seq ++ leBytes 4 op ++ leBytes 4 size

@[simp] theorem packetHeader_length (seq op size : Nat) :
    (packetHeader seq op size).length = 12 := by
  simp [packetHeader]

theorem ph_seq (s o z : Nat) :
    leVal ((packetHeader s o z).take 4) = s % 2 ^ 32 := by
  rw [show packetHeader s o z =
      leBytes 4 s ++ (leBytes 4 o ++ leBytes 4 z) by simp [packetHeader]]
  rw [take_append_len _ _ 4 (by simp), leVal_leBytes_mod]
  norm_num

theorem ph_op (s o z : Nat) :
    leVal (((packetHeader s o z).drop 4).take 4) = o % 2 ^ 32 := by
  rw [show packetHeader s o z =
      leBytes 4 s ++ (leBytes 4 o ++ leBytes 4 z) by simp [packetHeader]]
  rw [drop_append_len _ _ 4 (by simp), take_append_len _ _ 4 (by simp),
    leVal_leBytes_mod]
  norm_num

theorem ph_size (s o z : Nat) :
    leVal ((packetHeader s o z).drop 8) = z % 2 ^ 32 := by
  rw [show packetHeader s o z =
      (leBytes 4 s ++ leBytes 4 o) ++ leBytes 4 z by simp [packetHeader]]
  rw [drop_append_len _ _ 8 (by simp), leVal_leBytes_mod]
  norm_num

/-- C7 (counterexample): a packet whose 2-byte payload arrives split
across two recv calls is returned byte-identical by the virtio-serial
transport, but the unix-socket transport — which reads the payload with
a single `recv` — returns a packet whose data is just the first arrived
byte `[170]`, neither the full payload nor nothing. -/
theorem C7_counterexample :
    unix_read_command [[1, 0, 0, 0, 2, 0, 0, 0, 2, 0, 0, 0], [170], [187]] =
      some (⟨1, 2, 2, [170]⟩, [[187]]) ∧
    virtio_read_command [[1, 0, 0, 0, 2, 0, 0, 0, 2, 0, 0, 0], [170], [187]] =
      some (⟨1, 2, 2, [170, 187]⟩, []) ∧
    ([170] : List Nat) ≠ [170, 187] :=
  ⟨rfl, rfl, by decide⟩

/-- C7 (amended): the server/virtio-serial transport's `read_command`
performs exact-length reads looping until the full 12-byte header and
the full `size`-byte payload have arrived, returning the packet
byte-identical however the bytes were split across socket reads, and
returns nothing (never raising) when the input is short; the
client/unix-socket transport instead issues one `recv` per part: a short
header read returns nothing, but a payload split across reads is
truncated to the first read's bytes and still returned as a packet; a
packet fully contained in one chunk round-trips byte-identically. -/
theorem C7_read_command (chunks : List (List Nat)) (seq op : Nat)
    (data : List Nat) (hne : ∀ c ∈ chunks, c ≠ [])
    (hseq : seq < 2 ^ 32) (hop : op < 2 ^ 32) (hdl : data.length < 2 ^ 32)
    (hfl : chunks.flatten = packetHeader seq op data.length ++ data) :
    (∃ s, virtio_read_command chunks =
        some (⟨seq, op, data.length, data⟩, s) ∧ s.flatten = []) ∧
    (∀ cs : List (List Nat), cs.flatten.length < 12 →
       virtio_read_command cs = none) ∧
    (∀ (c : List Nat) (cs : List (List Nat)), c.length < 12 →
       unix_read_command (c :: cs) = none) ∧
    (∀ (sz : Nat) (c2 : List Nat) (cs : List (List Nat)), sz < 2 ^ 32 →
       c2.length < sz →
       unix_read_command (packetHeader seq op sz :: c2 :: cs) =
         some (⟨seq, op, sz, c2⟩, cs)) ∧
    unix_read_command [packetHeader seq op data.length ++ data] =
      some (⟨seq, op, data.length, data⟩, []) := by
  have hph12 : (packetHeader seq op data.length).length = 12 := by simp
  refine ⟨?_, ?_, ?_, ?_, ?_⟩
  · have hlen12 : 12 ≤ chunks.flatten.length := by
      rw [hfl]; simp
    obtain ⟨s1, h1, h1f, h1ne⟩ := recvExact_flatten chunks 12 hne hlen12
    have hhdr : chunks.flatten.take 12 = packetHeader seq op data.length := by
      rw [hfl]; exact take_append_len _ _ _ hph12
    have hs1f : s1.flatten = data := by
      rw [h1f, hfl]; exact drop_append_len _ _ _ hph12
    rw [virtio_read_command, h1, hhdr]
    simp only [ph_seq, ph_op, ph_size, Nat.mod_eq_of_lt hseq,
      Nat.mod_eq_of_lt hop, Nat.mod_eq_of_lt hdl]
    by_cases hd : 0 < data.length
    · rw [if_pos hd]
      obtain ⟨s2, h2, h2f, _⟩ := recvExact_flatten s1 data.length h1ne
        (by rw [hs1f])
      have htk : s1.flatten.take data.length = data := by
        rw [hs1f]; exact List.take_of_length_le (Nat.le_refl _)
      have hdr : s2.flatten = [] := by
        rw [h2f, hs1f]; exact List.drop_eq_nil_of_le (Nat.le_refl _)
      rw [h2, htk]
      exact ⟨s2, rfl, hdr⟩
    · have hdata : data = [] := List.length_eq_zero.mp (by omega)
      rw [if_neg hd]
      subst hdata
      exact ⟨s1, rfl, hs1f⟩
  · intro cs hcs
    rw [virtio_read_command, recvExact_short cs 12 hcs]
  · intro c cs hc
    rw [unix_read_command]
    simp only [recvChunk]
    rw [if_pos (by
      rw [List.take_of_length_le (by omega)]
      omega)]
  · intro sz c2 cs hsz hlen2
    have hph : (packetHeader seq op sz).length = 12 := by simp
    have htk : (packetHeader seq op sz).take 12 = packetHeader seq op sz :=
      List.take_of_length_le (by rw [hph])
    have hdp : (packetHeader seq op sz).drop 12 = [] :=
      List.drop_eq_nil_of_le (by rw [hph])
    have htk2 : c2.take sz = c2 := List.take_of_length_le (by omega)
    have hdp2 : c2.drop sz = [] := List.drop_eq_nil_of_le (by omega)
    have hs0 : 0 < sz := by omega
    rw [unix_read_command]
    simp only [recvChunk, htk, hdp, hph, htk2, hdp2, ph_seq, ph_op, ph_size,
      Nat.mod_eq_of_lt hseq, Nat.mod_eq_of_lt hop, Nat.mod_eq_of_lt hsz,
      if_pos hs0]
    rw [if_neg (by omega)]
    simp only [eq_self_iff_true, if_true, htk2, hdp2]
  · have htk : (packetHeader seq op data.length ++ data).take 12 =
        packetHeader seq op data.length := take_append_len _ _ _ hph12
    have hdp : (packetHeader seq op data.length ++ data).drop 12 = data :=
      drop_append_len _ _ _ hph12
    rw [unix_read_command]
    simp only [recvChunk, htk, hdp, hph12, ph_seq, ph_op, ph_size,
      Nat.mod_eq_of_lt hseq, Nat.mod_eq_of_lt hop, Nat.mod_eq_of_lt hdl]
    rw [if_neg (by omega)]
    by_cases hd : data = []
    · subst hd
      simp [recvChunk]
    · have hd0 : 0 < data.length := List.length_pos.mpr hd
      have htk2 : data.take data.length = data :=
        List.take_of_length_le (Nat.le_refl _)
      have hdp2 : data.drop data.length = [] :=
        List.drop_eq_nil_of_le (Nat.le_refl _)
      rw [if_neg hd, if_pos hd0]
      simp only [recvChunk, htk2, hdp2, eq_self_iff_true, if_true]

/-- C7 (witness): the amended statement at a concrete packet
(sequence 7, opcode 3, payload [9, 9, 9]) split one byte per read. -/
theorem C7_read_command_witness :
    (∃ s, virtio_read_command
        [[7, 0, 0], [0], [3, 0, 0, 0, 3, 0], [0, 0, 9], [9], [9]] =
        some (⟨7, 3, 3, [9, 9, 9]⟩, s) ∧ s.flatten = []) ∧
    (∀ cs : List (List Nat), cs.flatten.length < 12 →
       virtio_read_command cs = none) ∧
    (∀ (c : List Nat) (cs : List (List Nat)), c.length < 12 →
       unix_read_command (c :: cs) = none) ∧
    (∀ (sz : Nat) (c2 : List Nat) (cs : List (List Nat)), sz < 2 ^ 32 →
       c2.length < sz →
       unix_read_command (packetHeader 7 3 sz :: c2 :: cs) =
         some (⟨7, 3, sz, c2⟩, cs)) ∧
    unix_read_command [packetHeader 7 3 3 ++ [9, 9, 9]] =
      some (⟨7, 3, 3, [9, 9, 9]⟩, []) := by
  have h := C7_read_command
    [[7, 0, 0], [0], [3, 0, 0, 0, 3, 0], [0, 0, 9], [9], [9]] 7 3 [9, 9, 9]
    (by decide) (by decide) (by decide) (by decide) (by decide)
  simpa using h

end Linblock
